import Mathlib

/-!
Verification development for the clinical document assistant.

This file gives a shallow embedding of the algorithmic core of the
repository - the regex-based entity extractor with greedy overlap
resolution (app/services/entity_extractor.py), the FAISS-backed vector
store (app/services/vector_store.py) and the retrieval orchestrator
(app/services/qa_engine.py) - and proves or refutes the specified
properties against that embedding.

Modelling conventions:
- Python floats are modelled as rationals.
- The external embedding model (HuggingFaceEmbeddings), the external
  regex engine (re.finditer), the external text splitter
  (RecursiveCharacterTextSplitter) and the external LLM are
  collaborators; they are passed in as function parameters and all
  theorems quantify over them or instantiate them concretely.
- FAISS exact search over the index built by FAISS.from_texts and
  merge_from is modelled as ranking the stored vectors by ascending
  squared euclidean distance to the query vector, stably (ties keep
  insertion order).  Python list.sort and sorted are stable sorts, so
  both they and the FAISS ranking are modelled with List.insertionSort,
  which is stable.
- Python dicts are modelled as association lists with unique keys and
  insertion-order-preserving update.
-/

namespace ClinicalAI

/-! ## Data model -/

/-- Model of app/models.py ClinicalEntity: a labelled match with
character offsets (end exclusive) and a confidence score. -/
structure ClinicalEntity where
  text : String
  label : String
  start : Nat
  «end» : Nat
  confidence : ℚ
deriving DecidableEq

/-- Model of a compiled regex applied through re.finditer: the matches
of the pattern in the input text, in order, each as
(matched substring, start offset, end offset).  The regex engine itself
is an external collaborator (the re module); theorems quantify over it. -/
def PatternMatcher : Type := String → List (String × Nat × Nat)

/-- Extractor state as set up in MedicalEntityExtractor.__init__:
the pattern catalogue, a mapping from category label to its pattern
matchers. -/
structure MedicalEntityExtractor where
  patterns : List (String × List PatternMatcher)

/-- Metadata values occurring in this system: strings (report ids,
caller metadata) and integers (chunk_id, chunk_total). -/
inductive MValue where
  | s (v : String)
  | n (v : Nat)
deriving DecidableEq

/-- A Python dict is modelled as an association list with unique keys. -/
abbrev MData := List (String × MValue)

/-- Dict lookup d.get(key): the value at the first matching key. -/
def aget {β : Type} (d : List (String × β)) (key : String) : Option β :=
  (d.find? (fun kv => decide (kv.1 = key))).map (·.2)

/-- Dict update d[key] = v: replaces the value in place when the key is
present, otherwise appends (Python dicts keep insertion order). -/
def aset {β : Type} (d : List (String × β)) (key : String) (v : β) :
    List (String × β) :=
  if d.any (fun kv => decide (kv.1 = key)) then
    d.map (fun kv => if kv.1 = key then (key, v) else kv)
  else d ++ [(key, v)]

/-- Dict deletion del d[key]. -/
def adel {β : Type} (d : List (String × β)) (key : String) :
    List (String × β) :=
  d.filter (fun kv => decide (kv.1 ≠ key))

/-- Model of a langchain Document as stored in the FAISS docstore:
page content plus metadata. -/
structure PyDoc where
  page_content : String
  metadata : MData
deriving DecidableEq

/-- State of vector_store.VectorStore: the FAISS index (None until the
first add_report; afterwards the list of indexed chunks with their
embedding vectors, in insertion order) and the report metadata dict. -/
structure VectorStore where
  vector_store : Option (List (PyDoc × List ℚ))
  metadata_store : List (String × MData)
deriving DecidableEq

/-- The indexed chunks of a store (empty when never populated). -/
def vsDocs (vs : VectorStore) : List (PyDoc × List ℚ) :=
  match vs.vector_store with
  | none => []
  | some docs => docs

/-! ## Entity extractor (app/services/entity_extractor.py) -/

/-- Model of MedicalEntityExtractor._load_patterns.  The regex source
strings are kept verbatim; the parameter re models re-compilation of a
pattern source into a matcher. -/
def _load_patterns (re : String → PatternMatcher) :
    List (String × List PatternMatcher) :=
  [("MEDICATION",
    [re "\\b\\w+mycin\\b",
     re "\\b\\w+cillin\\b",
     re "\\b\\w+prazole\\b",
     re "\\b\\w+statin\\b",
     re "\\b\\w+olol\\b",
     re "\\b\\w+pine\\b",
     re "\\baspirin\\b",
     re "\\bmetformin\\b",
     re "\\blisinopril\\b",
     re "\\bibuprofen\\b",
     re "\\binsulin\\b"]),
   ("LAB_VALUE",
    [re "\\b(?:HbA1c|A1C)[:\\s]*(\\d+\\.?\\d*)\\s*%",
     re "\\b(?:BP|Blood Pressure)[:\\s]*(\\d+)/(\\d+)",
     re "\\b(?:glucose|sugar)[:\\s]*(\\d+)\\s*mg/dL",
     re "\\b(?:creatinine)[:\\s]*(\\d+\\.?\\d*)\\s*mg/dL",
     re "\\b(?:hemoglobin|Hb)[:\\s]*(\\d+\\.?\\d*)\\s*g/dL",
     re "\\b(?:WBC|white blood cell)[:\\s]*(\\d+\\.?\\d*)",
     re "\\b(?:platelet)[:\\s]*(\\d+\\.?\\d*)"]),
   ("VITAL_SIGNS",
    [re "\\b(?:temperature|temp)[:\\s]*(\\d+\\.?\\d*)\\s*[°]?[FC]",
     re "\\b(?:heart rate|HR|pulse)[:\\s]*(\\d+)\\s*bpm",
     re "\\b(?:respiratory rate|RR)[:\\s]*(\\d+)",
     re "\\b(?:SpO2|oxygen saturation)[:\\s]*(\\d+)\\s*%"])]

/-- Sort order used by _deduplicate_entities: Python
sorted(entities, key=lambda e: (e.start, -e.confidence)) orders by the
key tuple, i.e. ascending start, ties broken by descending confidence. -/
def entRel (a b : ClinicalEntity) : Prop :=
  a.start < b.start ∨ (a.start = b.start ∧ b.confidence ≤ a.confidence)

instance entRelDecidable : DecidableRel entRel := fun a b =>
  inferInstanceAs (Decidable (a.start < b.start ∨
    (a.start = b.start ∧ b.confidence ≤ a.confidence)))

instance entRelTotal : IsTotal ClinicalEntity entRel where
  total a b := by
    unfold entRel
    rcases Nat.lt_trichotomy a.start b.start with h | h | h
    · exact Or.inl (Or.inl h)
    · rcases le_total b.confidence a.confidence with hc | hc
      · exact Or.inl (Or.inr ⟨h, hc⟩)
      · exact Or.inr (Or.inr ⟨h.symm, hc⟩)
    · exact Or.inr (Or.inl h)

instance entRelTrans : IsTrans ClinicalEntity entRel where
  trans a b c hab hbc := by
    unfold entRel at *
    rcases hab with h1 | ⟨h1, h1c⟩
    · rcases hbc with h2 | ⟨h2, _⟩
      · exact Or.inl (h1.trans h2)
      · exact Or.inl (h2 ▸ h1)
    · rcases hbc with h2 | ⟨h2, h2c⟩
      · exact Or.inl (h1 ▸ h2)
      · exact Or.inr ⟨h1.trans h2, h2c.trans h1c⟩

/-- Overlap test from the loop body of _deduplicate_entities:
entity.start < existing.end and entity.end > existing.start. -/
def overlapsB (entity existing : ClinicalEntity) : Bool :=
  decide (entity.start < existing.«end») && decide (entity.«end» > existing.start)

/-- One iteration of the acceptance loop of _deduplicate_entities:
the candidate is appended only when it overlaps no already-accepted
entity. -/
def dedupStep (deduplicated : List ClinicalEntity) (entity : ClinicalEntity) :
    List ClinicalEntity :=
  if deduplicated.any (fun existing => overlapsB entity existing) then deduplicated
  else deduplicated ++ [entity]

/-- Model of MedicalEntityExtractor._deduplicate_entities: sort by
(start, -confidence), then a single greedy pass accepting only
candidates that overlap no already-accepted interval. -/
def _deduplicate_entities (entities : List ClinicalEntity) :
    List ClinicalEntity :=
  if entities = [] then []
  else
    let sorted_entities := entities.insertionSort entRel
    sorted_entities.foldl dedupStep []

/-- Candidate collection loop of extract_entities: for each catalogue
category, for each of its patterns, every match becomes a candidate
entity with that category label and confidence 0.85. -/
def collectEntities (patterns : List (String × List PatternMatcher))
    (text : String) : List ClinicalEntity :=
  patterns.foldl
    (fun acc lp =>
      lp.2.foldl
        (fun acc2 pat =>
          acc2 ++ (pat text).map (fun m =>
            { text := m.1, label := lp.1, start := m.2.1, «end» := m.2.2,
              confidence := 0.85 }))
        acc)
    []

/-- Model of MedicalEntityExtractor.extract_entities: collect all
pattern matches, then deduplicate. -/
def MedicalEntityExtractor.extract_entities (self : MedicalEntityExtractor)
    (text : String) : List ClinicalEntity :=
  _deduplicate_entities (collectEntities self.patterns text)

/-- Non-overlap of the half-open offset intervals of two entities. -/
def NonOverlap (a b : ClinicalEntity) : Prop :=
  ¬ (a.start < b.«end» ∧ b.start < a.«end»)

/-- Scenario C candidate: the aspirin match at offsets 10 to 17 with
confidence 0.85. -/
def scenarioCAspirin : ClinicalEntity :=
  { text := "aspirin", label := "MEDICATION", start := 10, «end» := 17,
    confidence := 0.85 }

/-- Scenario C candidate: the longer overlapping pattern match covering
offsets 8 to 20 with confidence 0.85. -/
def scenarioCLong : ClinicalEntity :=
  { text := "BP aspirin 1", label := "LAB_VALUE", start := 8, «end» := 20,
    confidence := 0.85 }

/-- Model of Python str.lower as used on the category labels in
extract_structured_data (character-wise lowering; identical to
str.lower on the ASCII catalogue labels). -/
def str_lower (s : String) : String := String.mk (s.data.map Char.toLower)

/-- Helper modelling structured[key].append(v) on the fixed-key dict of
extract_structured_data. -/
def appendAt (d : List (String × List (String × ℚ))) (key : String)
    (v : String × ℚ) : List (String × List (String × ℚ)) :=
  d.map (fun kv => if kv.1 = key then (kv.1, kv.2 ++ [v]) else kv)

/-- Per-entity dispatch of extract_structured_data: append the entity's
text and confidence to the bucket selected by its lower-cased label. -/
def structStep (structured : List (String × List (String × ℚ)))
    (entity : ClinicalEntity) : List (String × List (String × ℚ)) :=
  if str_lower entity.label = "medication" then
    appendAt structured "medications" (entity.text, entity.confidence)
  else if str_lower entity.label = "lab_value" then
    appendAt structured "lab_values" (entity.text, entity.confidence)
  else if str_lower entity.label = "vital_signs" then
    appendAt structured "vital_signs" (entity.text, entity.confidence)
  else structured

/-- Model of MedicalEntityExtractor.extract_structured_data: start from
the six fixed empty buckets and partition the deduplicated entities. -/
def MedicalEntityExtractor.extract_structured_data
    (self : MedicalEntityExtractor) (text : String) :
    List (String × List (String × ℚ)) :=
  (self.extract_entities text).foldl structStep
    [("medications", []), ("lab_values", []), ("vital_signs", []),
     ("diagnoses", []), ("procedures", []), ("symptoms", [])]

/-- The text and confidence carried into a structured bucket. -/
def entryOf (e : ClinicalEntity) : String × ℚ := (e.text, e.confidence)

/-! ## Vector store (app/services/vector_store.py) -/

/-- Squared euclidean distance, the score FAISS IndexFlatL2 reports. -/
def sqDist (u v : List ℚ) : ℚ :=
  (List.zipWith (fun a b => (a - b) * (a - b)) u v).sum

/-- Ranking order of FAISS search results: ascending score. -/
def scoreRel (a b : PyDoc × ℚ) : Prop := a.2 ≤ b.2

instance scoreRelDecidable : DecidableRel scoreRel := fun a b =>
  inferInstanceAs (Decidable (a.2 ≤ b.2))

instance scoreRelTotal : IsTotal (PyDoc × ℚ) scoreRel :=
  ⟨fun a b => le_total a.2 b.2⟩

instance scoreRelTrans : IsTrans (PyDoc × ℚ) scoreRel :=
  ⟨fun _ _ _ h1 h2 => le_trans h1 h2⟩

/-- Model of FAISS similarity_search_with_score: embed the query, score
every indexed chunk by squared L2 distance, rank ascending (stably) and
return the first k documents with their scores. -/
def similarity_search_with_score (embed : String → List ℚ)
    (docs : List (PyDoc × List ℚ)) (query : String) (k : Nat) :
    List (PyDoc × ℚ) :=
  ((docs.map (fun d => (d.1, sqDist (embed query) d.2))).insertionSort
    scoreRel).take k

/-- Model of FAISS similarity_search: the same ranking without scores. -/
def similarity_search (embed : String → List ℚ)
    (docs : List (PyDoc × List ℚ)) (query : String) (k : Nat) :
    List PyDoc :=
  (similarity_search_with_score embed docs query k).map (·.1)

/-- One formatted search result as built in VectorStore.search. -/
structure SearchResult where
  content : String
  metadata : MData
  similarity_score : ℚ
  report_id : Option MValue
deriving DecidableEq

/-- Formats one (document, score) pair: similarity is 1 - score, with
no clamping. -/
def toSearchResult (ds : PyDoc × ℚ) : SearchResult :=
  { content := ds.1.page_content, metadata := ds.1.metadata,
    similarity_score := 1 - ds.2,
    report_id := aget ds.1.metadata "report_id" }

/-- Skip condition of the result loop in VectorStore.search: a truthy
filter dict with at least one key whose value does not match the
chunk's metadata. -/
def skipB (filter_by : MData) (md : MData) : Bool :=
  !filter_by.isEmpty &&
    filter_by.any (fun kv => decide (aget md kv.1 ≠ some kv.2))

/-- One iteration of the result loop in VectorStore.search. -/
def searchStep (filter_by : MData) (acc : List SearchResult)
    (ds : PyDoc × ℚ) : List SearchResult :=
  if skipB filter_by ds.1.metadata then acc else acc ++ [toSearchResult ds]

/-- Model of VectorStore.search: top-k FAISS results, then a
post-filtering pass by metadata.  A filter_by of [] models Python
filter_by=None or an empty dict (both falsy). -/
def VectorStore.search (embed : String → List ℚ) (vs : VectorStore)
    (query : String) (k : Nat) (filter_by : MData) : List SearchResult :=
  match vs.vector_store with
  | none => []
  | some docs =>
      (similarity_search_with_score embed docs query k).foldl
        (searchStep filter_by) []

/-- Model of VectorStore.search_by_report_ids: a report_id filter is
passed only when exactly one id is supplied; otherwise filter_by is
None. -/
def VectorStore.search_by_report_ids (embed : String → List ℚ)
    (vs : VectorStore) (query : String) (report_ids : List String)
    (k : Nat) : List SearchResult :=
  vs.search embed query k
    (match report_ids with
     | [rid] => [("report_id", MValue.s rid)]
     | _ => [])

/-- Sort key used on chunk dicts in get_report_chunks:
x.get("chunk_id", 0), with integer chunk ids. -/
def chunkKey : Option MValue → Nat
  | some (MValue.n v) => v
  | _ => 0

/-- Ascending chunk_id order for the final sort of get_report_chunks. -/
def chunkPairRel (a b : String × Option MValue) : Prop :=
  chunkKey a.2 ≤ chunkKey b.2

instance chunkPairRelDecidable : DecidableRel chunkPairRel := fun a b =>
  inferInstanceAs (Decidable (chunkKey a.2 ≤ chunkKey b.2))

instance chunkPairRelTotal : IsTotal (String × Option MValue) chunkPairRel :=
  ⟨fun a b => Nat.le_total (chunkKey a.2) (chunkKey b.2)⟩

instance chunkPairRelTrans : IsTrans (String × Option MValue) chunkPairRel :=
  ⟨fun _ _ _ h1 h2 => Nat.le_trans h1 h2⟩

/-- One iteration of the chunk-collection loop of get_report_chunks. -/
def grcStep (report_id : String) (acc : List (String × Option MValue))
    (doc : PyDoc) : List (String × Option MValue) :=
  if aget doc.metadata "report_id" = some (MValue.s report_id) then
    acc ++ [(doc.page_content, aget doc.metadata "chunk_id")]
  else acc

/-- Model of VectorStore.get_report_chunks: fetch up to 1000 chunks via
similarity_search with an empty query, keep those of the requested
report, sort by chunk_id and return the contents. -/
def VectorStore.get_report_chunks (embed : String → List ℚ)
    (vs : VectorStore) (report_id : String) : List String :=
  match vs.vector_store with
  | none => []
  | some docs =>
      let all_docs := similarity_search embed docs "" 1000
      let chunks := all_docs.foldl (grcStep report_id) []
      (chunks.insertionSort chunkPairRel).map (·.1)

/-- Status values returned by delete_report. -/
inductive DeleteStatus where
  | marked_for_deletion
  | not_found
deriving DecidableEq

/-- Model of VectorStore.delete_report: metadata-only deletion; the
FAISS index is untouched. -/
def VectorStore.delete_report (vs : VectorStore) (report_id : String) :
    VectorStore × DeleteStatus :=
  if vs.metadata_store.any (fun kv => decide (kv.1 = report_id)) then
    ({ vs with metadata_store := adel vs.metadata_store report_id },
     DeleteStatus.marked_for_deletion)
  else (vs, DeleteStatus.not_found)

/-- Return value of get_stats. -/
structure Stats where
  total_reports : Nat
  total_chunks : Nat
  reports : List String
deriving DecidableEq

/-- Model of VectorStore.get_stats: report count and ids come from the
metadata dict, the chunk count from the FAISS index (ntotal). -/
def VectorStore.get_stats (vs : VectorStore) : Stats :=
  match vs.vector_store with
  | none => { total_reports := 0, total_chunks := 0, reports := [] }
  | some docs =>
      { total_reports := vs.metadata_store.length,
        total_chunks := docs.length,
        reports := vs.metadata_store.map Prod.fst }

/-- Per-chunk metadata built in add_report: the fixed keys followed by
the caller's metadata dict (later keys override earlier ones, as in the
Python dict literal with ** unpacking). -/
def chunkMetadata (report_id : String) (i total : Nat) (metadata : MData) :
    MData :=
  metadata.foldl (fun d kv => aset d kv.1 kv.2)
    [("report_id", MValue.s report_id), ("chunk_id", MValue.n i),
     ("chunk_total", MValue.n total)]

/-- The documents FAISS.from_texts builds for one add_report call: one
per chunk, in chunk order, each with its metadata and embedding. -/
def reportDocs (split : String → List String) (embed : String → List ℚ)
    (report_id : String) (content : String) (metadata : MData) :
    List (PyDoc × List ℚ) :=
  let chunks := split content
  chunks.enum.map (fun ic =>
    ({ page_content := ic.2,
       metadata := chunkMetadata report_id ic.1 chunks.length metadata },
     embed ic.2))

/-- Return value of add_report (the status field is the constant
string success and is omitted). -/
structure AddResult where
  report_id : String
  chunks_added : Nat
deriving DecidableEq

/-- Model of VectorStore.add_report: split the content, embed each
chunk, create the index or merge into it (merge_from appends), and
overwrite the report's entry in the metadata dict. -/
def VectorStore.add_report (split : String → List String)
    (embed : String → List ℚ) (vs : VectorStore) (report_id : String)
    (content : String) (metadata : MData) : VectorStore × AddResult :=
  let new_docs := reportDocs split embed report_id content metadata
  let vstore :=
    match vs.vector_store with
    | none => some new_docs
    | some docs => some (docs ++ new_docs)
  ({ vector_store := vstore,
     metadata_store := aset vs.metadata_store report_id metadata },
   { report_id := report_id, chunks_added := (split content).length })

/-- Filter satisfaction: the chunk metadata matches every key/value
pair of the filter. -/
def FilterMatches (filter_by md : MData) : Prop :=
  ∀ kv ∈ filter_by, aget md kv.1 = some kv.2

instance filterMatchesDecidable (filter_by md : MData) :
    Decidable (FilterMatches filter_by md) :=
  inferInstanceAs (Decidable (∀ kv ∈ filter_by, aget md kv.1 = some kv.2))

/-! ## Retrieval orchestrator (app/services/qa_engine.py) -/

/-- One source entry as built by QAEngine._format_sources. -/
structure QASource where
  report_id : Option MValue
  chunk_id : Option MValue
  similarity : ℚ
  excerpt : String
deriving DecidableEq

/-- Return value of QAEngine.answer_question.  The sentinel no-result
answer carries no num_sources key, modelled as none. -/
structure QAResult where
  answer : String
  sources : List QASource
  confidence : ℚ
  num_sources : Option Nat
deriving DecidableEq

/-- The sentinel answer text of answer_question. -/
def noInfoAnswer : String :=
  "I couldn't find relevant information in the reports to answer this question."

/-- Rendering of a metadata value in the context header;
metadata.get('report_id', 'Unknown'). -/
def mvalStr : Option MValue → String
  | some (MValue.s v) => v
  | some (MValue.n v) => toString v
  | none => "Unknown"

/-- Model of QAEngine._prepare_context.  The Python code renders the
similarity with two decimal places; the rendering of the number is a
presentation detail and is modelled by toString. -/
def _prepare_context (documents : List SearchResult) : String :=
  String.intercalate "\n---\n"
    (documents.enum.map (fun idoc =>
      "[Source " ++ toString (idoc.1 + 1) ++ " - Report ID: " ++
        mvalStr (aget idoc.2.metadata "report_id") ++ " | Relevance: " ++
        toString idoc.2.similarity_score ++ "]\n" ++ idoc.2.content ++ "\n"))

/-- Model of QAEngine._format_sources. -/
def _format_sources (documents : List SearchResult) : List QASource :=
  documents.map (fun doc =>
    { report_id := aget doc.metadata "report_id",
      chunk_id := aget doc.metadata "chunk_id",
      similarity := doc.similarity_score,
      excerpt := if 200 < doc.content.length then
          doc.content.take 200 ++ "..."
        else doc.content })

/-- Model of Python round(x, 2): round half to even at two decimals.
Python rounds the binary double; on the exact rationals of this model
the half-to-even rule is the faithful reading. -/
def pyRound2 (x : ℚ) : ℚ :=
  let y := x * 100
  let f : ℤ := ⌊y⌋
  let r : ℤ :=
    if y - (f : ℚ) < 1 / 2 then f
    else if (1 : ℚ) / 2 < y - (f : ℚ) then f + 1
    else if f % 2 = 0 then f else f + 1
  (r : ℚ) / 100

/-- Retrieval step of answer_question: with a truthy report_ids list,
one search_by_report_ids call per id, extending one accumulator list;
otherwise one unrestricted search. -/
def relevantDocs (embed : String → List ℚ) (vs : VectorStore)
    (question : String) (report_ids : Option (List String)) (k : Nat) :
    List SearchResult :=
  match report_ids with
  | some ids =>
      if ids.isEmpty then vs.search embed question k []
      else ids.foldl
        (fun acc rid => acc ++ vs.search_by_report_ids embed question [rid] k)
        []
  | none => vs.search embed question k []

/-- Model of QAEngine.answer_question.  The llm parameter models the
external LLM call on the question and prepared context. -/
def answer_question (embed : String → List ℚ)
    (llm : String → String → String) (vs : VectorStore) (question : String)
    (report_ids : Option (List String)) (k : Nat) : QAResult :=
  let relevant_docs := relevantDocs embed vs question report_ids k
  if relevant_docs.isEmpty then
    { answer := noInfoAnswer, sources := [], confidence := 0,
      num_sources := none }
  else
    { answer := llm question (_prepare_context relevant_docs),
      sources := _format_sources relevant_docs,
      confidence := pyRound2
        (((relevant_docs.map (·.similarity_score)).sum) / relevant_docs.length),
      num_sources := some relevant_docs.length }

/-! ## Concrete stores and inputs used in counterexamples and witnesses -/

/-- Constant zero embedder: every text maps to the one-dimensional zero
vector, so all FAISS scores tie. -/
def embed0 : String → List ℚ := fun _ => [0]

/-- An indexed chunk with the given report id, chunk id and content,
carrying the zero vector. -/
def tieDoc (rid : String) (i : Nat) (content : String) : PyDoc × List ℚ :=
  ({ page_content := content,
     metadata := [("report_id", MValue.s rid), ("chunk_id", MValue.n i)] },
   [0])

/-- Embedder for the similarity-range counterexample: the query maps to
a unit vector opposite to the indexed chunk's. -/
def embedCex3 : String → List ℚ := fun _ => [-1, 0]

/-- Store with one chunk whose vector is the unit vector (1,0); the
squared distance to the opposite unit vector is 4. -/
def vsCex3 : VectorStore :=
  { vector_store := some
      [({ page_content := "t",
          metadata := [("report_id", MValue.s "r1"), ("chunk_id", MValue.n 0)] },
        [1, 0])],
    metadata_store := [("r1", [])] }

/-- Embedder for the post-filtering counterexample: the query equals the
first chunk's vector. -/
def embedCex4 : String → List ℚ := fun _ => [1, 0]

/-- Store with two chunks: the query is closest to the r1 chunk while
only the r2 chunk matches the filter under test. -/
def vsCex4 : VectorStore :=
  { vector_store := some
      [({ page_content := "t1",
          metadata := [("report_id", MValue.s "r1"), ("chunk_id", MValue.n 0)] },
        [1, 0]),
       ({ page_content := "t2",
          metadata := [("report_id", MValue.s "r2"), ("chunk_id", MValue.n 0)] },
        [0, 1])],
    metadata_store := [("r1", []), ("r2", [])] }

/-- Store with 1001 indexed chunks, all with tied scores under embed0:
1000 chunks of report B inserted before the single chunk of report A. -/
def docs5 : List (PyDoc × List ℚ) :=
  ((List.range 1000).map (fun i => tieDoc "B" i "x")) ++ [tieDoc "A" 0 "y"]

/-- The 1001-chunk store of docs5. -/
def vsCex5 : VectorStore :=
  { vector_store := some docs5, metadata_store := [("B", []), ("A", [])] }

/-- Store with three single-chunk reports r1, r2, r3, all vectors tied. -/
def vsCex6 : VectorStore :=
  { vector_store := some [tieDoc "r1" 0 "c1", tieDoc "r2" 0 "c2",
      tieDoc "r3" 0 "c3"],
    metadata_store := [("r1", []), ("r2", []), ("r3", [])] }

/-- Splitter for the re-insertion counterexample: the first content
splits into 1000 chunks, any other into one. -/
def split9 : String → List String :=
  fun s => if s = "a" then List.replicate 1000 "x" else ["y"]

/-- Freshly initialised store (no persisted state on disk). -/
def vs9a : VectorStore := { vector_store := none, metadata_store := [] }

/-- The store after add_report("A", "a") inserting 1000 chunks. -/
def vs9b : VectorStore := (vs9a.add_report split9 embed0 "A" "a" []).1

/-- The store after a second add_report("A", "b") for the same report
id, inserting one more chunk. -/
def vs9c : VectorStore := (vs9b.add_report split9 embed0 "A" "b" []).1

/-- Single-chunk splitter for the witness instantiations. -/
def splitW : String → List String := fun _ => ["s"]

/-- Witness store: one add_report call on a fresh store. -/
def vsW : VectorStore :=
  (VectorStore.mk none [] |>.add_report splitW embed0 "A" "c" []).1

/-! ## Theorems -/

theorem nonOverlap_symm {a b : ClinicalEntity} (h : NonOverlap a b) :
    NonOverlap b a := fun hc => h ⟨hc.2, hc.1⟩

theorem overlapsB_eq_false_iff {a b : ClinicalEntity} :
    overlapsB a b = false ↔ NonOverlap a b := by
  unfold overlapsB NonOverlap
  constructor
  · intro h hc
    rcases hc with ⟨h1, h2⟩
    simp [h1, h2] at h
  · intro h
    cases h1 : decide (a.start < b.«end»)
    · simp [h1]
    · cases h2 : decide (a.«end» > b.start)
      · simp [h1, h2]
      · exact absurd ⟨of_decide_eq_true h1, of_decide_eq_true h2⟩ h

theorem dedupStep_pairwise {acc : List ClinicalEntity} {e : ClinicalEntity}
    (h : acc.Pairwise NonOverlap) : (dedupStep acc e).Pairwise NonOverlap := by
  unfold dedupStep
  cases hany : acc.any (fun existing => overlapsB e existing) with
  | true => simpa using h
  | false =>
      have hall : ∀ x ∈ acc, overlapsB e x = false := by
        intro x hx
        have hx2 := List.any_eq_false.mp hany x hx
        cases hb : overlapsB e x
        · rfl
        · exact absurd hb hx2
      rw [if_neg (by decide)]
      rw [List.pairwise_append]
      refine ⟨h, List.pairwise_singleton _ _, ?_⟩
      intro a ha b hb
      rw [List.mem_singleton] at hb
      subst hb
      exact nonOverlap_symm (overlapsB_eq_false_iff.mp (hall a ha))

theorem foldl_dedupStep_pairwise :
    ∀ (l acc : List ClinicalEntity), acc.Pairwise NonOverlap →
      (l.foldl dedupStep acc).Pairwise NonOverlap := by
  intro l
  induction l with
  | nil => intro acc h; exact h
  | cons e t ih =>
      intro acc h
      exact ih (dedupStep acc e) (dedupStep_pairwise h)

theorem dedup_pairwise (es : List ClinicalEntity) :
    (_deduplicate_entities es).Pairwise NonOverlap := by
  unfold _deduplicate_entities
  by_cases h : es = []
  · simp [h]
  · simp only [h, if_false]
    exact foldl_dedupStep_pairwise _ [] List.Pairwise.nil

/-- C1: for every regex engine and every input text, the entity list
returned by extract_entities is pairwise non-overlapping: for every
pair of distinct entities in the output, their half-open
(start, end) intervals do not intersect. -/
theorem extract_entities_nonoverlap (re : String → PatternMatcher)
    (text : String) :
    ((MedicalEntityExtractor.mk (_load_patterns re)).extract_entities
        text).Pairwise NonOverlap :=
  dedup_pairwise _

/-- C2: deduplication follows the greedy leftmost-first
highest-confidence-first policy.  The sorted candidate list is a
permutation of the input, is ordered by ascending start with ties
broken by descending confidence, and _deduplicate_entities is exactly
the single greedy acceptance pass over that sorted list.  In
particular, in Scenario C the match starting at offset 8 is accepted
and the equal-confidence aspirin match starting at offset 10 is
discarded. -/
theorem dedup_policy :
    (∀ es : List ClinicalEntity,
        (es.insertionSort entRel).Perm es
      ∧ (es.insertionSort entRel).Sorted entRel
      ∧ _deduplicate_entities es = (es.insertionSort entRel).foldl dedupStep [])
  ∧ _deduplicate_entities [scenarioCAspirin, scenarioCLong] = [scenarioCLong] := by
  constructor
  · intro es
    refine ⟨List.perm_insertionSort entRel es, List.sorted_insertionSort entRel es, ?_⟩
    by_cases h : es = []
    · subst h; rfl
    · simp only [_deduplicate_entities, h, if_false]
  · have hrel : ¬ entRel scenarioCAspirin scenarioCLong := by
      simp [entRel, scenarioCAspirin, scenarioCLong]
    have hov : overlapsB scenarioCAspirin scenarioCLong = true := by
      simp [overlapsB, scenarioCAspirin, scenarioCLong]
    have s1 : dedupStep [] scenarioCLong = [scenarioCLong] := by
      simp [dedupStep]
    have s2 : dedupStep [scenarioCLong] scenarioCAspirin = [scenarioCLong] := by
      simp [dedupStep, hov]
    rw [_deduplicate_entities]
    rw [if_neg (by simp)]
    simp only [List.insertionSort, List.orderedInsert]
    rw [if_neg hrel]
    simp only [List.foldl, s1, s2]

theorem foldl_searchStep (fb : MData) :
    ∀ (l : List (PyDoc × ℚ)) (acc : List SearchResult),
      l.foldl (searchStep fb) acc =
        acc ++ (l.filter (fun ds => !skipB fb ds.1.metadata)).map toSearchResult := by
  intro l
  induction l with
  | nil => intro acc; simp
  | cons ds t ih =>
      intro acc
      cases h : skipB fb ds.1.metadata
      · simp [List.foldl_cons, searchStep, h, ih, List.filter_cons]
      · simp [List.foldl_cons, searchStep, h, ih, List.filter_cons]

theorem search_eq (embed : String → List ℚ) (vs : VectorStore)
    (query : String) (k : Nat) (fb : MData) :
    vs.search embed query k fb =
      ((similarity_search_with_score embed (vsDocs vs) query k).filter
        (fun ds => !skipB fb ds.1.metadata)).map toSearchResult := by
  cases hv : vs.vector_store with
  | none =>
      simp [VectorStore.search, hv, vsDocs, similarity_search_with_score]
  | some docs =>
      simp only [VectorStore.search, hv, vsDocs]
      simpa using foldl_searchStep fb (similarity_search_with_score embed docs query k) []

theorem ssws_length_le (embed : String → List ℚ)
    (docs : List (PyDoc × List ℚ)) (query : String) (k : Nat) :
    (similarity_search_with_score embed docs query k).length ≤ k := by
  unfold similarity_search_with_score
  exact List.length_take_le k _

theorem ssws_sorted (embed : String → List ℚ) (docs : List (PyDoc × List ℚ))
    (query : String) (k : Nat) :
    (similarity_search_with_score embed docs query k).Pairwise scoreRel :=
  List.Pairwise.sublist (List.take_sublist _ _)
    (List.sorted_insertionSort scoreRel _)

theorem ssws_mem {embed : String → List ℚ} {docs : List (PyDoc × List ℚ)}
    {query : String} {k : Nat} {ds : PyDoc × ℚ}
    (h : ds ∈ similarity_search_with_score embed docs query k) :
    ∃ d ∈ docs, ds = (d.1, sqDist (embed query) d.2) := by
  unfold similarity_search_with_score at h
  have h1 := (List.take_sublist _ _).subset h
  have h2 := ((List.perm_insertionSort scoreRel _).mem_iff).mp h1
  rcases List.mem_map.mp h2 with ⟨d, hd, he⟩
  exact ⟨d, hd, he.symm⟩

theorem sqDist_nonneg (u v : List ℚ) : 0 ≤ sqDist u v := by
  induction u generalizing v with
  | nil => simp [sqDist]
  | cons a u ih =>
      cases v with
      | nil => simp [sqDist]
      | cons b v =>
          have h1 : (0:ℚ) ≤ (a - b) * (a - b) := mul_self_nonneg _
          have h2 := ih v
          simp only [sqDist, List.zipWith_cons_cons, List.sum_cons] at *
          linarith

/-- C3 (amended): for every query and k, search returns at most k
results, sorted by non-increasing similarity, and every similarity is
at most 1 (it equals 1 minus a nonnegative squared distance).  The
original claim's lower bound 0 does not hold: the code performs no
clamping, see search_similarity_below_zero. -/
theorem search_ranking (embed : String → List ℚ) (vs : VectorStore)
    (query : String) (k : Nat) (filter_by : MData) :
    (vs.search embed query k filter_by).length ≤ k
  ∧ (vs.search embed query k filter_by).Pairwise
      (fun a b => b.similarity_score ≤ a.similarity_score)
  ∧ ∀ r ∈ vs.search embed query k filter_by, r.similarity_score ≤ 1 := by
  rw [search_eq]
  refine ⟨?_, ?_, ?_⟩
  · rw [List.length_map]
    exact le_trans (List.length_filter_le _ _) (ssws_length_le embed _ query k)
  · refine List.pairwise_map.mpr ?_
    refine List.Pairwise.imp ?_
      (List.Pairwise.sublist (List.filter_sublist _) (ssws_sorted embed _ query k))
    intro a b hab
    exact sub_le_sub_left hab 1
  · intro r hr
    rcases List.mem_map.mp hr with ⟨ds, hds, he⟩
    have hds2 := (List.filter_sublist _).subset hds
    rcases ssws_mem hds2 with ⟨d, _, hde⟩
    rw [← he]
    show 1 - ds.2 ≤ 1
    rw [hde]
    have := sqDist_nonneg (embed query) d.2
    linarith

/-- C3 counterexample: on a store holding one unit vector, a query
embedding to the opposite unit vector yields squared distance 4 and
similarity 1 - 4 = -3, outside the claimed range from 0 to 1; the code
does not clamp. -/
theorem search_similarity_below_zero :
    ¬ ∀ r ∈ vsCex3.search embedCex3 "q" 5 [], 0 ≤ r.similarity_score := by
  have hsq : sqDist (embedCex3 "q") [1, 0] = 4 := by
    norm_num [sqDist, embedCex3]
  have heval : vsCex3.search embedCex3 "q" 5 [] =
      [{ content := "t",
         metadata := [("report_id", MValue.s "r1"), ("chunk_id", MValue.n 0)],
         similarity_score := -3, report_id := some (MValue.s "r1") }] := by
    rw [VectorStore.search]
    show (similarity_search_with_score embedCex3 _ "q" 5).foldl (searchStep []) [] = _
    rw [similarity_search_with_score]
    norm_num [hsq, searchStep, skipB, toSearchResult, aget]
  intro h
  have := h _ (by rw [heval]; exact List.mem_singleton_self _)
  norm_num at this

theorem skipB_eq_false_iff {fb md : MData} :
    skipB fb md = false ↔ FilterMatches fb md := by
  unfold skipB FilterMatches
  constructor
  · intro h kv hkv
    rcases Bool.and_eq_false_iff.mp h with h1 | h2
    · have h1b : fb.isEmpty = true := by simpa using h1
      rw [List.isEmpty_iff.mp h1b] at hkv
      exact absurd hkv (List.not_mem_nil kv)
    · have := List.any_eq_false.mp h2 kv hkv
      simpa using this
  · intro h
    apply Bool.and_eq_false_iff.mpr
    right
    apply List.any_eq_false.mpr
    intro kv hkv
    simp [h kv hkv]

/-- C4 (amended): search applies the filter as a post-filter over the k
globally highest-similarity chunks: the result is exactly the filtered
projection of the top-k ranking.  Consequently every returned result's
metadata satisfies the filter, and a filter matching no indexed chunk
yields the empty sequence without error.  The original claim's "the k
highest-similarity chunks whose metadata matches f" does not hold:
matching chunks ranked outside the global top k are never returned,
see search_misses_matching_chunk. -/
theorem search_filter_correct (embed : String → List ℚ) (vs : VectorStore)
    (query : String) (k : Nat) (filter_by : MData) :
    vs.search embed query k filter_by =
      ((similarity_search_with_score embed (vsDocs vs) query k).filter
        (fun ds => !skipB filter_by ds.1.metadata)).map toSearchResult
  ∧ (∀ r ∈ vs.search embed query k filter_by,
      FilterMatches filter_by r.metadata)
  ∧ ((∀ d ∈ vsDocs vs, ¬ FilterMatches filter_by d.1.metadata) →
      vs.search embed query k filter_by = []) := by
  refine ⟨search_eq embed vs query k filter_by, ?_, ?_⟩
  · intro r hr
    rw [search_eq] at hr
    rcases List.mem_map.mp hr with ⟨ds, hds, he⟩
    have hkeep := (List.mem_filter.mp hds).2
    rw [Bool.not_eq_true'] at hkeep
    have := skipB_eq_false_iff.mp hkeep
    rw [← he]
    exact this
  · intro hno
    rw [search_eq]
    have hall : ∀ ds ∈ similarity_search_with_score embed (vsDocs vs) query k,
        ¬ (!skipB filter_by ds.1.metadata) = true := by
      intro ds hds
      rcases ssws_mem hds with ⟨d, hd, hde⟩
      have hnm := hno d hd
      cases hsk : skipB filter_by ds.1.metadata
      · exact absurd (skipB_eq_false_iff.mp hsk) (by rw [hde]; exact hnm)
      · simp [hsk]
    rw [List.filter_eq_nil_iff.mpr hall]
    rfl

/-- C4 witness: on the two-chunk store, a filter matching no indexed
chunk returns the empty sequence. -/
theorem search_filter_correct_witness :
    vsCex4.search embedCex4 "q" 1 [("report_id", MValue.s "zzz")] = [] :=
  (search_filter_correct embedCex4 vsCex4 "q" 1
    [("report_id", MValue.s "zzz")]).2.2 (by decide)

/-- C4 counterexample: with k = 1 and a filter matching only the r2
chunk, the globally closest chunk is the r1 chunk, which is filtered
out, so search returns nothing even though an indexed chunk matching
the filter exists - refuting "returns the k highest-similarity chunks
whose metadata matches f". -/
theorem search_misses_matching_chunk :
    vsCex4.search embedCex4 "q" 1 [("report_id", MValue.s "r2")] = []
  ∧ ∃ d ∈ vsDocs vsCex4,
      FilterMatches [("report_id", MValue.s "r2")] d.1.metadata := by
  constructor
  · have h1 : sqDist (embedCex4 "q") [1, 0] = 0 := by
      norm_num [sqDist, embedCex4]
    have h2 : sqDist (embedCex4 "q") [0, 1] = 2 := by
      norm_num [sqDist, embedCex4]
    rw [VectorStore.search]
    show (similarity_search_with_score embedCex4 _ "q" 1).foldl
      (searchStep _) [] = _
    rw [similarity_search_with_score]
    norm_num [h1, h2, scoreRel, searchStep, skipB, toSearchResult, aget]
    decide
  · decide

theorem foldl_grcStep (rid : String) :
    ∀ (l : List PyDoc) (acc : List (String × Option MValue)),
      l.foldl (grcStep rid) acc =
        acc ++ ((l.filter (fun d =>
            decide (aget d.metadata "report_id" = some (MValue.s rid)))).map
          (fun d => (d.page_content, aget d.metadata "chunk_id"))) := by
  intro l
  induction l with
  | nil => intro acc; simp
  | cons d t ih =>
      intro acc
      by_cases hp : aget d.metadata "report_id" = some (MValue.s rid)
      · simp [List.foldl_cons, grcStep, hp, ih, List.filter_cons]
      · simp [List.foldl_cons, grcStep, hp, ih, List.filter_cons]

theorem grc_eq (embed : String → List ℚ) (vs : VectorStore) (rid : String)
    (docs : List (PyDoc × List ℚ)) (hv : vs.vector_store = some docs) :
    vs.get_report_chunks embed rid =
      ((((similarity_search embed docs "" 1000).filter (fun d =>
            decide (aget d.metadata "report_id" = some (MValue.s rid)))).map
          (fun d => (d.page_content, aget d.metadata "chunk_id"))).insertionSort
        chunkPairRel).map Prod.fst := by
  simp only [VectorStore.get_report_chunks, hv]
  rw [foldl_grcStep]
  simp

/-- C5 (amended): whenever the store holds at most 1000 chunks,
get_report_chunks returns exactly the contents of every chunk of the
requested report, ordered by ascending chunk_id; a report with no
indexed chunk (in particular an absent report) yields the empty
sequence without error.  Repeated calls agree because the function is
deterministic in the store state.  The original claim's "every chunk"
fails beyond 1000 indexed chunks, see get_report_chunks_misses_chunk. -/
theorem get_report_chunks_spec (embed : String → List ℚ) (vs : VectorStore)
    (rid : String) :
    (∀ docs, vs.vector_store = some docs → docs.length ≤ 1000 →
      ∃ pairs : List (String × Option MValue),
        pairs.Perm (((docs.map Prod.fst).filter (fun d =>
            decide (aget d.metadata "report_id" = some (MValue.s rid)))).map
          (fun d => (d.page_content, aget d.metadata "chunk_id")))
      ∧ pairs.Pairwise chunkPairRel
      ∧ vs.get_report_chunks embed rid = pairs.map Prod.fst)
  ∧ ((∀ d ∈ vsDocs vs, aget d.1.metadata "report_id" ≠ some (MValue.s rid)) →
      vs.get_report_chunks embed rid = []) := by
  constructor
  · intro docs hv hlen
    have hperm : (similarity_search embed docs "" 1000).Perm (docs.map Prod.fst) := by
      unfold similarity_search similarity_search_with_score
      have hl : ((docs.map (fun d => (d.1, sqDist (embed "") d.2))).insertionSort
          scoreRel).length = docs.length := by
        rw [(List.perm_insertionSort scoreRel _).length_eq, List.length_map]
      rw [List.take_of_length_le (le_of_eq_of_le hl hlen)]
      have hp := (List.perm_insertionSort scoreRel
        (docs.map (fun d => (d.1, sqDist (embed "") d.2)))).map Prod.fst
      rw [List.map_map] at hp
      exact hp
    refine ⟨(((similarity_search embed docs "" 1000).filter (fun d =>
        decide (aget d.metadata "report_id" = some (MValue.s rid)))).map
      (fun d => (d.page_content, aget d.metadata "chunk_id"))).insertionSort
      chunkPairRel, ?_, ?_, ?_⟩
    · exact (List.perm_insertionSort _ _).trans ((hperm.filter _).map _)
    · exact List.sorted_insertionSort _ _
    · exact grc_eq embed vs rid docs hv
  · intro hno
    cases hv : vs.vector_store with
    | none => simp [VectorStore.get_report_chunks, hv]
    | some docs =>
        rw [grc_eq embed vs rid docs hv]
        have hall : ∀ d ∈ similarity_search embed docs "" 1000,
            ¬ (decide (aget d.metadata "report_id" = some (MValue.s rid))) = true := by
          intro d hd
          unfold similarity_search at hd
          rcases List.mem_map.mp hd with ⟨ds, hds, he⟩
          rcases ssws_mem hds with ⟨dd, hdd, hde⟩
          have hd1 : d = dd.1 := by rw [← he, hde]
          rw [hd1]
          have := hno dd (by simp [vsDocs, hv, hdd])
          simpa using this
        rw [List.filter_eq_nil_iff.mpr hall]
        simp

/-- C5 witness: a report id matching no indexed chunk yields the empty
sequence. -/
theorem get_report_chunks_spec_witness :
    vsCex6.get_report_chunks embed0 "zzz" = [] :=
  (get_report_chunks_spec embed0 vsCex6 "zzz").2 (by decide)

theorem scored_const {embed : String → List ℚ} {docs : List (PyDoc × List ℚ)}
    {q : String} {c : ℚ} (h : ∀ d ∈ docs, sqDist (embed q) d.2 = c) :
    docs.map (fun d => (d.1, sqDist (embed q) d.2)) =
      docs.map (fun d => (d.1, c)) :=
  List.map_congr_left fun d hd => by rw [h d hd]

theorem ssws_of_ties {embed : String → List ℚ} {docs : List (PyDoc × List ℚ)}
    {q : String} {c : ℚ} (k : Nat) (h : ∀ d ∈ docs, sqDist (embed q) d.2 = c) :
    similarity_search_with_score embed docs q k =
      (docs.map (fun d => (d.1, c))).take k := by
  unfold similarity_search_with_score
  have hs : List.Sorted scoreRel (docs.map (fun d => (d.1, c))) :=
    List.pairwise_map.mpr
      (List.pairwise_of_forall_mem_list fun a _ b _ => le_refl c)
  rw [scored_const h, hs.insertionSort_eq]

theorem docs5_tied : ∀ d ∈ docs5, sqDist (embed0 "") d.2 = 0 := by
  intro d hd
  have hv : d.2 = [0] := by
    unfold docs5 at hd
    rcases List.mem_append.mp hd with h | h
    · rcases List.mem_map.mp h with ⟨i, _, he⟩
      rw [← he]; rfl
    · rw [List.mem_singleton.mp h]; rfl
  rw [hv]
  norm_num [sqDist, embed0]

theorem take_append_eq_left {α : Type} {l1 l2 : List α} {n : Nat}
    (h : l1.length = n) : (l1 ++ l2).take n = l1 := by
  subst h
  exact List.take_left _ _

theorem docs5_take :
    (docs5.map (fun d => (d.1, (0:ℚ)))).take 1000 =
      ((List.range 1000).map (fun i => tieDoc "B" i "x")).map
        (fun d => (d.1, (0:ℚ))) := by
  unfold docs5
  rw [List.map_append]
  exact take_append_eq_left (by simp)

theorem grc_cex5_eval : vsCex5.get_report_chunks embed0 "A" = [] := by
  rw [grc_eq embed0 vsCex5 "A" docs5 rfl]
  have hss : similarity_search embed0 docs5 "" 1000 =
      ((List.range 1000).map (fun i => tieDoc "B" i "x")).map (fun d => d.1) := by
    unfold similarity_search
    rw [ssws_of_ties 1000 docs5_tied, docs5_take, List.map_map]
    rfl
  rw [hss]
  have hall : ∀ d ∈ ((List.range 1000).map (fun i => tieDoc "B" i "x")).map
      (fun d => d.1),
      ¬ (decide (aget d.metadata "report_id" = some (MValue.s "A"))) = true := by
    intro d hd
    rcases List.mem_map.mp hd with ⟨dd, hdd, he⟩
    rcases List.mem_map.mp hdd with ⟨i, _, he2⟩
    rw [← he, ← he2]
    simp [tieDoc, aget]
  rw [List.filter_eq_nil_iff.mpr hall]
  simp

/-- C5 counterexample: in a store of 1001 chunks whose scores all tie,
the single chunk of report A was inserted last, falls outside the
1000-result window of the internal similarity_search call, and is
missed: get_report_chunks returns an empty sequence although report A
has an indexed chunk - refuting "returns every chunk belonging to that
document". -/
theorem get_report_chunks_misses_chunk :
    vsCex5.get_report_chunks embed0 "A" = []
  ∧ ∃ d ∈ vsDocs vsCex5, aget d.1.metadata "report_id" = some (MValue.s "A") := by
  refine ⟨grc_cex5_eval, ⟨tieDoc "A" 0 "y", ?_, by simp [tieDoc, aget]⟩⟩
  show tieDoc "A" 0 "y" ∈ docs5
  unfold docs5
  exact List.mem_append_right _ (List.mem_singleton_self _)

theorem search_vsCex6_eval : vsCex6.search embed0 "q" 3 [] =
    ([tieDoc "r1" 0 "c1", tieDoc "r2" 0 "c2", tieDoc "r3" 0 "c3"].map
      (fun d => (d.1, (0:ℚ)))).map toSearchResult := by
  have htied : ∀ d ∈ [tieDoc "r1" 0 "c1", tieDoc "r2" 0 "c2",
      tieDoc "r3" 0 "c3"], sqDist (embed0 "q") d.2 = 0 := by
    intro d hd
    simp only [List.mem_cons, List.not_mem_nil, or_false] at hd
    rcases hd with rfl | rfl | rfl <;> norm_num [sqDist, embed0, tieDoc]
  rw [search_eq]
  rw [show vsDocs vsCex6 = [tieDoc "r1" 0 "c1", tieDoc "r2" 0 "c2",
    tieDoc "r3" 0 "c3"] from rfl]
  rw [ssws_of_ties 3 htied]
  rw [List.take_of_length_le (by simp)]
  rw [List.filter_eq_self.mpr (fun a _ => by simp [skipB])]

/-- C6: with more than one report id, search_by_report_ids passes no
filter at all, so the search runs over the whole index rather than the
union of the requested reports: on a three-report store, asking for
reports r1 and r2 returns a result from report r3.  The first conjunct
shows the call literally equals the unrestricted search. -/
theorem search_by_report_ids_multi :
    vsCex6.search_by_report_ids embed0 "q" ["r1", "r2"] 3 =
      vsCex6.search embed0 "q" 3 []
  ∧ ∃ r ∈ vsCex6.search_by_report_ids embed0 "q" ["r1", "r2"] 3,
      r.report_id = some (MValue.s "r3") := by
  refine ⟨rfl, ?_⟩
  have hsrch : vsCex6.search_by_report_ids embed0 "q" ["r1", "r2"] 3 =
      ([tieDoc "r1" 0 "c1", tieDoc "r2" 0 "c2", tieDoc "r3" 0 "c3"].map
        (fun d => (d.1, (0:ℚ)))).map toSearchResult := search_vsCex6_eval
  rw [hsrch]
  refine ⟨toSearchResult ((tieDoc "r3" 0 "c3").1, 0), ?_, by decide⟩
  exact List.mem_map.mpr ⟨((tieDoc "r3" 0 "c3").1, 0),
    List.mem_map.mpr ⟨tieDoc "r3" 0 "c3", by simp, rfl⟩, rfl⟩

theorem foldl_extend_empty (embed : String → List ℚ)
    (ms : List (String × MData)) (q : String) (k : Nat) :
    ∀ (l : List String) (acc : List SearchResult),
      l.foldl (fun acc rid =>
        acc ++ (VectorStore.mk none ms).search_by_report_ids embed q [rid] k)
        acc = acc := by
  intro l
  induction l with
  | nil => intro acc; rfl
  | cons rid t ih =>
      intro acc
      rw [List.foldl_cons]
      have : (VectorStore.mk none ms).search_by_report_ids embed q [rid] k
          = [] := rfl
      rw [this, List.append_nil]
      exact ih acc

/-- C7: searching a never-populated index (vector_store is None)
returns the empty sequence for every query, k and filter, and
answer_question on such a store returns the sentinel no-information
answer with confidence 0, an empty source list and no source count, as
a normal result. -/
theorem empty_index_no_info (embed : String → List ℚ)
    (llm : String → String → String) (ms : List (String × MData))
    (q : String) (ids : Option (List String)) (k : Nat) (fb : MData) :
    (VectorStore.mk none ms).search embed q k fb = []
  ∧ answer_question embed llm (VectorStore.mk none ms) q ids k =
      { answer := noInfoAnswer, sources := [], confidence := 0,
        num_sources := none } := by
  refine ⟨rfl, ?_⟩
  have hrel : relevantDocs embed (VectorStore.mk none ms) q ids k = [] := by
    cases ids with
    | none => rfl
    | some l =>
        simp only [relevantDocs]
        by_cases hl : l.isEmpty
        · rw [if_pos hl]; rfl
        · rw [if_neg hl]
          exact foldl_extend_empty embed ms q k l []
  unfold answer_question
  rw [hrel]
  rfl

theorem adel_length_of_nodup :
    ∀ (ms : List (String × MData)) (rid : String),
      (ms.map Prod.fst).Nodup →
      ms.any (fun kv => decide (kv.1 = rid)) = true →
      (adel ms rid).length + 1 = ms.length := by
  intro ms rid
  induction ms with
  | nil => intro _ h; simp at h
  | cons kv t ih =>
      intro hnd hany
      have hndc : (kv.1 :: t.map Prod.fst).Nodup := by
        rw [List.map_cons] at hnd; exact hnd
      have hnd2 := List.nodup_cons.mp hndc
      by_cases hk : kv.1 = rid
      · have hnotin : rid ∉ t.map Prod.fst := hk ▸ hnd2.1
        have hfilter : adel t rid = t := by
          apply List.filter_eq_self.mpr
          intro a ha
          have hne : a.1 ≠ rid := by
            intro he
            exact hnotin (he ▸ List.mem_map_of_mem Prod.fst ha)
          simpa using hne
        have hdk : (decide (kv.1 ≠ rid)) = false := by simp [hk]
        unfold adel
        rw [List.filter_cons, hdk]
        simp only [if_false, Bool.false_eq_true]
        show (adel t rid).length + 1 = t.length + 1
        rw [hfilter]
      · have hany2 : t.any (fun kv => decide (kv.1 = rid)) = true := by
          rw [List.any_cons] at hany
          rcases Bool.or_eq_true_iff.mp hany with h | h
          · exact absurd (of_decide_eq_true h) hk
          · exact h
        have hdk : (decide (kv.1 ≠ rid)) = true := by simp [hk]
        unfold adel
        rw [List.filter_cons, hdk]
        simp only [if_true]
        have := ih hnd2.2 hany2
        show ((adel t rid).length + 1) + 1 = t.length + 1
        omega

/-- C8: deleting an indexed report removes its id from the metadata map
immediately: get_stats afterwards no longer lists the id, the report
count drops by exactly one, and the searchable vector set is untouched
(the vectors remain until a rebuild, as documented). -/
theorem delete_report_stats (vs : VectorStore) (rid : String)
    (docs : List (PyDoc × List ℚ)) (hv : vs.vector_store = some docs)
    (hnd : (vs.metadata_store.map Prod.fst).Nodup)
    (hmem : vs.metadata_store.any (fun kv => decide (kv.1 = rid)) = true) :
    rid ∉ ((vs.delete_report rid).1.get_stats).reports
  ∧ ((vs.delete_report rid).1.get_stats).total_reports + 1 =
      vs.get_stats.total_reports
  ∧ (vs.delete_report rid).1.vector_store = vs.vector_store := by
  have hdel : (vs.delete_report rid).1 =
      { vs with metadata_store := adel vs.metadata_store rid } := by
    unfold VectorStore.delete_report
    rw [if_pos hmem]
  rw [hdel]
  refine ⟨?_, ?_, rfl⟩
  · simp only [VectorStore.get_stats, hv]
    intro hmm
    rcases List.mem_map.mp hmm with ⟨kv, hkv, he⟩
    have hf := List.of_mem_filter hkv
    simp only [decide_eq_true_eq] at hf
    exact hf he
  · simp only [VectorStore.get_stats, hv]
    exact adel_length_of_nodup vs.metadata_store rid hnd hmem

/-- C8 witness: deleting report r2 from the three-report store. -/
theorem delete_report_stats_witness :
    "r2" ∉ ((vsCex6.delete_report "r2").1.get_stats).reports
  ∧ ((vsCex6.delete_report "r2").1.get_stats).total_reports + 1 =
      vsCex6.get_stats.total_reports
  ∧ (vsCex6.delete_report "r2").1.vector_store = vsCex6.vector_store :=
  delete_report_stats vsCex6 "r2" _ rfl (by decide) (by decide)

theorem find?_aset_map {β : Type} (k : String) (v : β) :
    ∀ d : List (String × β),
      List.find? (fun kv => decide (kv.1 = k))
          (d.map (fun kv => if kv.1 = k then (k, v) else kv)) =
        (List.find? (fun kv => decide (kv.1 = k)) d).map (fun _ => (k, v)) := by
  intro d
  induction d with
  | nil => rfl
  | cons kv t ih =>
      by_cases hk : kv.1 = k
      · simp [List.find?, hk]
      · simp [List.find?, hk, ih]

theorem find?_map_set_of_ne {β : Type} {j key : String} (hne : j ≠ key) (v : β) :
    ∀ d : List (String × β),
      List.find? (fun kv => decide (kv.1 = key))
          (d.map (fun kv => if kv.1 = j then (j, v) else kv)) =
        List.find? (fun kv => decide (kv.1 = key)) d := by
  intro d
  induction d with
  | nil => rfl
  | cons kv t ih =>
      by_cases hk : kv.1 = j
      · rw [List.map_cons, if_pos hk]
        rw [List.find?_cons_of_neg _ (by simp [hne]),
          List.find?_cons_of_neg _ (by simp [hk, hne])]
        exact ih
      · by_cases hkey : kv.1 = key
        · rw [List.map_cons, if_neg hk]
          rw [List.find?_cons_of_pos _ (by simp [hkey]),
            List.find?_cons_of_pos _ (by simp [hkey])]
        · rw [List.map_cons, if_neg hk]
          rw [List.find?_cons_of_neg _ (by simp [hkey]),
            List.find?_cons_of_neg _ (by simp [hkey])]
          exact ih

theorem aget_aset_self {β : Type} (d : List (String × β)) (k : String) (v : β) :
    aget (aset d k v) k = some v := by
  unfold aget aset
  by_cases hany : d.any (fun kv => decide (kv.1 = k)) = true
  · rw [if_pos hany, find?_aset_map]
    rcases List.any_eq_true.mp hany with ⟨kv, hkv, hp⟩
    have hsome : (List.find? (fun kv => decide (kv.1 = k)) d).isSome := by
      rw [List.find?_isSome]
      exact ⟨kv, hkv, hp⟩
    rcases Option.isSome_iff_exists.mp hsome with ⟨x, hx⟩
    rw [hx]
    rfl
  · rw [if_neg hany, List.find?_append]
    have hnone : List.find? (fun kv => decide (kv.1 = k)) d = none := by
      apply List.find?_eq_none.mpr
      intro x hx
      have hfx := List.any_eq_false.mp (by
        cases hb : d.any (fun kv => decide (kv.1 = k))
        · rfl
        · exact absurd hb hany) x hx
      exact hfx
    rw [hnone]
    simp [List.find?]

theorem aget_aset_ne {β : Type} {d : List (String × β)} {j key : String}
    (hne : j ≠ key) (v : β) : aget (aset d j v) key = aget d key := by
  unfold aget aset
  by_cases hany : d.any (fun kv => decide (kv.1 = j)) = true
  · rw [if_pos hany, find?_map_set_of_ne hne]
  · rw [if_neg hany, List.find?_append]
    have h1 : List.find? (fun kv => decide (kv.1 = key)) [(j, v)] = none := by
      simp [List.find?, hne]
    rw [h1]
    simp

theorem any_aset_self {β : Type} (d : List (String × β)) (k : String) (v : β) :
    (aset d k v).any (fun kv => decide (kv.1 = k)) = true := by
  unfold aset
  by_cases hany : d.any (fun kv => decide (kv.1 = k)) = true
  · rw [if_pos hany]
    rcases List.any_eq_true.mp hany with ⟨kv, hkv, hp⟩
    apply List.any_eq_true.mpr
    refine ⟨(k, v), List.mem_map.mpr ⟨kv, hkv, ?_⟩, by simp⟩
    rw [if_pos (of_decide_eq_true hp)]
  · rw [if_neg hany]
    apply List.any_eq_true.mpr
    exact ⟨(k, v), List.mem_append_right _ (List.mem_singleton_self _), by simp⟩

theorem aset_length_of_mem {β : Type} {d : List (String × β)} {k : String}
    (v : β) (h : d.any (fun kv => decide (kv.1 = k)) = true) :
    (aset d k v).length = d.length := by
  unfold aset
  rw [if_pos h, List.length_map]

theorem aget_chunkMetadata_report_id (rid : String) (i total : Nat)
    (metadata : MData) (hm : ∀ kv ∈ metadata, kv.1 ≠ "report_id") :
    aget (chunkMetadata rid i total metadata) "report_id" =
      some (MValue.s rid) := by
  unfold chunkMetadata
  have hfold : ∀ (l : MData) (d : MData), (∀ kv ∈ l, kv.1 ≠ "report_id") →
      aget (l.foldl (fun d kv => aset d kv.1 kv.2) d) "report_id" =
        aget d "report_id" := by
    intro l
    induction l with
    | nil => intro d _; rfl
    | cons kv t ih =>
        intro d hl
        rw [List.foldl_cons]
        rw [ih _ (fun x hx => hl x (List.mem_cons_of_mem kv hx))]
        exact aget_aset_ne (hl kv (List.mem_cons_self kv t)) kv.2
  rw [hfold metadata _ hm]
  rfl

theorem add_report_vector_store (split : String → List String)
    (embed : String → List ℚ) (vs : VectorStore) (rid content : String)
    (metadata : MData) :
    ((vs.add_report split embed rid content metadata).1).vector_store =
      some (vsDocs vs ++ reportDocs split embed rid content metadata) := by
  unfold VectorStore.add_report vsDocs
  cases vs.vector_store <;> simp

theorem add_report_metadata_store (split : String → List String)
    (embed : String → List ℚ) (vs : VectorStore) (rid content : String)
    (metadata : MData) :
    ((vs.add_report split embed rid content metadata).1).metadata_store =
      aset vs.metadata_store rid metadata := rfl

theorem reportDocs_length (split : String → List String)
    (embed : String → List ℚ) (rid content : String) (metadata : MData) :
    (reportDocs split embed rid content metadata).length =
      (split content).length := by
  unfold reportDocs
  rw [List.length_map, List.enum_length]

theorem get_stats_total_chunks {vs : VectorStore}
    {docs : List (PyDoc × List ℚ)} (hv : vs.vector_store = some docs) :
    vs.get_stats.total_chunks = docs.length := by
  simp [VectorStore.get_stats, hv]

theorem get_stats_total_reports {vs : VectorStore}
    {docs : List (PyDoc × List ℚ)} (hv : vs.vector_store = some docs) :
    vs.get_stats.total_reports = vs.metadata_store.length := by
  simp [VectorStore.get_stats, hv]

theorem vsDocs_eq {vs : VectorStore} {docs : List (PyDoc × List ℚ)}
    (hv : vs.vector_store = some docs) : vsDocs vs = docs := by
  unfold vsDocs
  rw [hv]

theorem similarity_search_perm (embed : String → List ℚ)
    (docs : List (PyDoc × List ℚ)) (q : String) (hlen : docs.length ≤ 1000) :
    (similarity_search embed docs q 1000).Perm (docs.map Prod.fst) := by
  unfold similarity_search similarity_search_with_score
  have hl : ((docs.map (fun d => (d.1, sqDist (embed q) d.2))).insertionSort
      scoreRel).length = docs.length := by
    rw [(List.perm_insertionSort scoreRel _).length_eq, List.length_map]
  rw [List.take_of_length_le (le_of_eq_of_le hl hlen)]
  have hp := (List.perm_insertionSort scoreRel
    (docs.map (fun d => (d.1, sqDist (embed q) d.2)))).map Prod.fst
  rw [List.map_map] at hp
  exact hp

theorem mem_get_report_chunks {embed : String → List ℚ} {vs : VectorStore}
    {rid : String} {docs : List (PyDoc × List ℚ)}
    (hv : vs.vector_store = some docs) (hlen : docs.length ≤ 1000)
    {d : PyDoc × List ℚ} (hd : d ∈ docs)
    (hrid : aget d.1.metadata "report_id" = some (MValue.s rid)) :
    d.1.page_content ∈ vs.get_report_chunks embed rid := by
  rw [grc_eq embed vs rid docs hv]
  have hss := similarity_search_perm embed docs "" hlen
  have hd1 : d.1 ∈ similarity_search embed docs "" 1000 :=
    hss.mem_iff.mpr (List.mem_map_of_mem Prod.fst hd)
  have hpair : (d.1.page_content, aget d.1.metadata "chunk_id") ∈
      ((similarity_search embed docs "" 1000).filter (fun dd =>
        decide (aget dd.metadata "report_id" = some (MValue.s rid)))).map
      (fun dd => (dd.page_content, aget dd.metadata "chunk_id")) :=
    List.mem_map.mpr ⟨d.1, List.mem_filter.mpr ⟨hd1, by simp [hrid]⟩, rfl⟩
  have hins := (List.perm_insertionSort chunkPairRel _).mem_iff.mpr hpair
  exact List.mem_map.mpr ⟨_, hins, rfl⟩

theorem mem_reportDocs {split : String → List String}
    {embed : String → List ℚ} {rid content : String} {metadata : MData}
    {t : String} (ht : t ∈ split content) :
    ∃ i, ({ page_content := t,
            metadata := chunkMetadata rid i (split content).length metadata },
          embed t) ∈ reportDocs split embed rid content metadata := by
  rcases List.mem_iff_getElem.mp ht with ⟨i, hi, hit⟩
  refine ⟨i, ?_⟩
  unfold reportDocs
  apply List.mem_map.mpr
  refine ⟨(i, t), ?_, rfl⟩
  have hi2 : i < (split content).enum.length := by
    rw [List.enum_length]
    exact hi
  have he : (split content).enum[i] = (i, t) := by
    rw [List.getElem_enum]
    rw [hit]
  rw [← he]
  exact List.getElem_mem _

/-- C9 (amended): calling add_report a second time with an
already-indexed report id merges the new chunks alongside the old ones
rather than replacing them: the vector set becomes the previous set
followed by the new chunks, the indexed chunk count grows by the number
of new chunks, the metadata entry for the id is overwritten with the
new metadata, and the reported document count stays unchanged.
Whenever the merged store holds at most 1000 chunks (and the caller
metadata does not override the report_id key), get_report_chunks for
that id returns chunks from both calls.  Beyond 1000 chunks that last
clause fails, see add_report_second_chunk_missing. -/
theorem add_report_reinsert (split : String → List String)
    (embed : String → List ℚ) (vs : VectorStore) (rid c1 c2 : String)
    (m1 m2 : MData) (vs1 vs2 : VectorStore)
    (hvs1 : vs1 = (vs.add_report split embed rid c1 m1).1)
    (hvs2 : vs2 = (vs1.add_report split embed rid c2 m2).1) :
    vs2.vector_store = some (vsDocs vs1 ++ reportDocs split embed rid c2 m2)
  ∧ vs2.get_stats.total_chunks =
      vs1.get_stats.total_chunks + (split c2).length
  ∧ aget vs2.metadata_store rid = some m2
  ∧ vs2.get_stats.total_reports = vs1.get_stats.total_reports
  ∧ ((∀ kv ∈ m1, kv.1 ≠ "report_id") → (∀ kv ∈ m2, kv.1 ≠ "report_id") →
      (vsDocs vs2).length ≤ 1000 →
      ∀ t ∈ split c1 ++ split c2, t ∈ vs2.get_report_chunks embed rid) := by
  subst hvs1
  subst hvs2
  have hv1 := add_report_vector_store split embed vs rid c1 m1
  have hv2 := add_report_vector_store split embed
    (vs.add_report split embed rid c1 m1).1 rid c2 m2
  have hda : vsDocs (vs.add_report split embed rid c1 m1).1 =
      vsDocs vs ++ reportDocs split embed rid c1 m1 := vsDocs_eq hv1
  refine ⟨hv2, ?_, ?_, ?_, ?_⟩
  · rw [get_stats_total_chunks hv2, get_stats_total_chunks hv1,
      List.length_append, reportDocs_length, hda]
  · rw [add_report_metadata_store]
    exact aget_aset_self _ _ _
  · rw [get_stats_total_reports hv2, get_stats_total_reports hv1]
    rw [add_report_metadata_store]
    apply aset_length_of_mem
    rw [add_report_metadata_store]
    exact any_aset_self _ _ _
  · intro hm1 hm2 hlen t ht
    rw [vsDocs_eq hv2] at hlen
    rcases List.mem_append.mp ht with ht1 | ht2
    · rcases @mem_reportDocs split embed rid c1 m1 t ht1 with ⟨i, hmem⟩
      have hin2 : (({ page_content := t,
                      metadata := chunkMetadata rid i (split c1).length m1 } :
            PyDoc), embed t) ∈
          vsDocs (vs.add_report split embed rid c1 m1).1 ++
            reportDocs split embed rid c2 m2 := by
        apply List.mem_append_left
        rw [hda]
        exact List.mem_append_right _ hmem
      exact mem_get_report_chunks hv2 hlen hin2
        (aget_chunkMetadata_report_id rid i _ m1 hm1)
    · rcases @mem_reportDocs split embed rid c2 m2 t ht2 with ⟨i, hmem⟩
      have hin2 : (({ page_content := t,
                      metadata := chunkMetadata rid i (split c2).length m2 } :
            PyDoc), embed t) ∈
          vsDocs (vs.add_report split embed rid c1 m1).1 ++
            reportDocs split embed rid c2 m2 :=
        List.mem_append_right _ hmem
      exact mem_get_report_chunks hv2 hlen hin2
        (aget_chunkMetadata_report_id rid i _ m2 hm2)

/-- C9 witness: after indexing report A twice on a tiny store, the
chunk text of both calls is returned by get_report_chunks. -/
theorem add_report_reinsert_witness :
    "s" ∈ ((vsW.add_report splitW embed0 "A" "d" []).1).get_report_chunks
      embed0 "A" := by
  have h := add_report_reinsert splitW embed0 (VectorStore.mk none [])
    "A" "c" "d" [] [] vsW ((vsW.add_report splitW embed0 "A" "d" []).1) rfl rfl
  exact h.2.2.2.2 (by simp) (by simp) (by decide) "s" (by decide)

/-- C9 counterexample: after inserting 1000 chunks for report A and
then one more chunk for the same id, both calls' chunks are indexed
(the chunk count is 1001), but get_report_chunks misses the second
call's chunk because of the 1000-result window - refuting
"get_report_chunks for that id returns chunks from both calls". -/
theorem add_report_second_chunk_missing :
    "y" ∈ split9 "b"
  ∧ vs9c.get_stats.total_chunks = 1001
  ∧ "y" ∉ vs9c.get_report_chunks embed0 "A" := by
  have hspla : split9 "a" = List.replicate 1000 "x" := rfl
  have hsplb : split9 "b" = ["y"] := rfl
  have hb1 : vs9b.vector_store = some (reportDocs split9 embed0 "A" "a" []) :=
    rfl
  have hdocs : vs9c.vector_store = some (reportDocs split9 embed0 "A" "a" [] ++
      reportDocs split9 embed0 "A" "b" []) := by
    have h := add_report_vector_store split9 embed0 vs9b "A" "b" []
    rw [vsDocs_eq hb1] at h
    exact h
  refine ⟨by rw [hsplb]; exact List.mem_singleton_self _, ?_, ?_⟩
  · rw [get_stats_total_chunks hdocs, List.length_append, reportDocs_length,
      reportDocs_length, hspla, hsplb, List.length_replicate]
    rfl
  · intro hy
    rw [grc_eq embed0 vs9c "A" _ hdocs] at hy
    have htied : ∀ d ∈ reportDocs split9 embed0 "A" "a" [] ++
        reportDocs split9 embed0 "A" "b" [], sqDist (embed0 "") d.2 = 0 := by
      intro d hd
      have h2 : d.2 = [0] := by
        rcases List.mem_append.mp hd with h | h <;>
        · simp only [reportDocs] at h
          rcases List.mem_map.mp h with ⟨ic, _, he⟩
          rw [← he]
          rfl
      rw [h2]
      norm_num [sqDist, embed0]
    have hpartlen : ((reportDocs split9 embed0 "A" "a" []).map
        (fun d => (d.1, (0:ℚ)))).length = 1000 := by
      rw [List.length_map, reportDocs_length, hspla, List.length_replicate]
    have hss : similarity_search embed0 (reportDocs split9 embed0 "A" "a" [] ++
        reportDocs split9 embed0 "A" "b" []) "" 1000 =
        (reportDocs split9 embed0 "A" "a" []).map Prod.fst := by
      unfold similarity_search
      rw [ssws_of_ties 1000 htied, List.map_append,
        take_append_eq_left hpartlen, List.map_map]
      rfl
    rw [hss] at hy
    rcases List.mem_map.mp hy with ⟨pair, hpair, hpy⟩
    have hpair2 := (List.perm_insertionSort chunkPairRel _).mem_iff.mp hpair
    rcases List.mem_map.mp hpair2 with ⟨doc, hdoc, hgd⟩
    have hdoc2 := List.mem_of_mem_filter hdoc
    rcases List.mem_map.mp hdoc2 with ⟨dd, hdd, hddf⟩
    simp only [reportDocs] at hdd
    rcases List.mem_map.mp hdd with ⟨ic, hic, hicf⟩
    obtain ⟨i, s⟩ := ic
    rw [hspla] at hic
    have hs : s = "x" := by
      have h := List.mem_enum hic
      have h2 := h.2
      rw [List.getElem_replicate] at h2
      exact h2
    have hdpc : doc.page_content = "x" := by
      rw [← hddf, ← hicf]
      exact hs
    have hpx : pair.1 = "x" := by
      rw [← hgd]
      exact hdpc
    rw [hpy] at hpx
    exact absurd hpx (by decide)

theorem aget_cons_eq {β : Type} {k : String} {v : β} {t : List (String × β)} :
    aget ((k, v) :: t) k = some v := by
  simp [aget, List.find?]

theorem aget_cons_ne {β : Type} {k q : String} (h : ¬ k = q) {v : β}
    {t : List (String × β)} : aget ((k, v) :: t) q = aget t q := by
  simp [aget, List.find?, h]

theorem foldl_structStep :
    ∀ (es : List ClinicalEntity) (v1 v2 v3 v4 v5 v6 : List (String × ℚ)),
      es.foldl structStep
          [("medications", v1), ("lab_values", v2), ("vital_signs", v3),
           ("diagnoses", v4), ("procedures", v5), ("symptoms", v6)] =
        [("medications", v1 ++ (es.filter (fun e =>
            decide (str_lower e.label = "medication"))).map entryOf),
         ("lab_values", v2 ++ (es.filter (fun e =>
            decide (str_lower e.label = "lab_value"))).map entryOf),
         ("vital_signs", v3 ++ (es.filter (fun e =>
            decide (str_lower e.label = "vital_signs"))).map entryOf),
         ("diagnoses", v4), ("procedures", v5), ("symptoms", v6)] := by
  intro es
  induction es with
  | nil => intro v1 v2 v3 v4 v5 v6; simp
  | cons e t ih =>
      intro v1 v2 v3 v4 v5 v6
      rw [List.foldl_cons]
      by_cases h1 : str_lower e.label = "medication"
      · have hstep : structStep
            [("medications", v1), ("lab_values", v2), ("vital_signs", v3),
             ("diagnoses", v4), ("procedures", v5), ("symptoms", v6)] e =
            [("medications", v1 ++ [entryOf e]), ("lab_values", v2),
             ("vital_signs", v3), ("diagnoses", v4), ("procedures", v5),
             ("symptoms", v6)] := by
          simp [structStep, h1, appendAt, entryOf]
        rw [hstep, ih]
        simp [List.filter_cons, h1]
      · by_cases h2 : str_lower e.label = "lab_value"
        · have hstep : structStep
              [("medications", v1), ("lab_values", v2), ("vital_signs", v3),
               ("diagnoses", v4), ("procedures", v5), ("symptoms", v6)] e =
              [("medications", v1), ("lab_values", v2 ++ [entryOf e]),
               ("vital_signs", v3), ("diagnoses", v4), ("procedures", v5),
               ("symptoms", v6)] := by
            simp [structStep, h1, h2, appendAt, entryOf]
          rw [hstep, ih]
          simp [List.filter_cons, h1, h2]
        · by_cases h3 : str_lower e.label = "vital_signs"
          · have hstep : structStep
                [("medications", v1), ("lab_values", v2), ("vital_signs", v3),
                 ("diagnoses", v4), ("procedures", v5), ("symptoms", v6)] e =
                [("medications", v1), ("lab_values", v2),
                 ("vital_signs", v3 ++ [entryOf e]), ("diagnoses", v4),
                 ("procedures", v5), ("symptoms", v6)] := by
              simp [structStep, h1, h2, h3, appendAt, entryOf]
            rw [hstep, ih]
            simp [List.filter_cons, h1, h2, h3]
          · have hstep : structStep
                [("medications", v1), ("lab_values", v2), ("vital_signs", v3),
                 ("diagnoses", v4), ("procedures", v5), ("symptoms", v6)] e =
                [("medications", v1), ("lab_values", v2), ("vital_signs", v3),
                 ("diagnoses", v4), ("procedures", v5), ("symptoms", v6)] := by
              simp [structStep, h1, h2, h3]
            rw [hstep, ih]
            simp [List.filter_cons, h1, h2, h3]

theorem mem_inner_fold {text : String} {label : String} :
    ∀ (pats : List PatternMatcher) (acc : List ClinicalEntity)
      (e : ClinicalEntity),
      e ∈ pats.foldl (fun acc2 pat => acc2 ++ (pat text).map (fun m =>
        { text := m.1, label := label, start := m.2.1, «end» := m.2.2,
          confidence := 0.85 })) acc →
      e ∈ acc ∨ e.label = label := by
  intro pats
  induction pats with
  | nil => intro acc e h; exact Or.inl h
  | cons pat t ih =>
      intro acc e h
      rw [List.foldl_cons] at h
      rcases ih _ e h with hacc | hl
      · rcases List.mem_append.mp hacc with hh | hh
        · exact Or.inl hh
        · rcases List.mem_map.mp hh with ⟨m, _, he⟩
          right
          rw [← he]
      · exact Or.inr hl

theorem mem_collectEntities {text : String} :
    ∀ (ps : List (String × List PatternMatcher)) (acc : List ClinicalEntity)
      (e : ClinicalEntity),
      e ∈ ps.foldl (fun acc lp =>
        lp.2.foldl (fun acc2 pat => acc2 ++ (pat text).map (fun m =>
          { text := m.1, label := lp.1, start := m.2.1, «end» := m.2.2,
            confidence := 0.85 })) acc) acc →
      e ∈ acc ∨ ∃ lp ∈ ps, e.label = lp.1 := by
  intro ps
  induction ps with
  | nil => intro acc e h; exact Or.inl h
  | cons lp t ih =>
      intro acc e h
      rw [List.foldl_cons] at h
      rcases ih _ e h with hacc | ⟨lq, hlq, hl⟩
      · rcases mem_inner_fold lp.2 acc e hacc with hh | hh
        · exact Or.inl hh
        · exact Or.inr ⟨lp, List.mem_cons_self lp t, hh⟩
      · exact Or.inr ⟨lq, List.mem_cons_of_mem lp hlq, hl⟩

theorem mem_dedupStep_foldl :
    ∀ (l acc : List ClinicalEntity) (e : ClinicalEntity),
      e ∈ l.foldl dedupStep acc → e ∈ acc ∨ e ∈ l := by
  intro l
  induction l with
  | nil => intro acc e h; exact Or.inl h
  | cons x t ih =>
      intro acc e h
      rw [List.foldl_cons] at h
      rcases ih _ e h with hacc | ht
      · unfold dedupStep at hacc
        by_cases hany : acc.any (fun existing => overlapsB x existing) = true
        · rw [if_pos hany] at hacc
          exact Or.inl hacc
        · rw [if_neg hany] at hacc
          rcases List.mem_append.mp hacc with hh | hh
          · exact Or.inl hh
          · rw [List.mem_singleton.mp hh]
            exact Or.inr (List.mem_cons_self x t)
      · exact Or.inr (List.mem_cons_of_mem x ht)

theorem dedup_subset {es : List ClinicalEntity} {e : ClinicalEntity}
    (h : e ∈ _deduplicate_entities es) : e ∈ es := by
  unfold _deduplicate_entities at h
  by_cases hn : es = []
  · rw [if_pos hn] at h
    exact absurd h (List.not_mem_nil e)
  · rw [if_neg hn] at h
    rcases mem_dedupStep_foldl (es.insertionSort entRel) [] e h with h1 | h1
    · exact absurd h1 (List.not_mem_nil e)
    · exact (List.perm_insertionSort entRel es).mem_iff.mp h1

theorem extract_entities_label (re : String → PatternMatcher) (text : String)
    {e : ClinicalEntity}
    (h : e ∈ (MedicalEntityExtractor.mk (_load_patterns re)).extract_entities
      text) :
    e.label = "MEDICATION" ∨ e.label = "LAB_VALUE" ∨
      e.label = "VITAL_SIGNS" := by
  have h2 : e ∈ collectEntities (_load_patterns re) text := dedup_subset h
  rcases mem_collectEntities (_load_patterns re) [] e h2 with h3 | ⟨lp, hlp, hl⟩
  · exact absurd h3 (List.not_mem_nil e)
  · unfold _load_patterns at hlp
    simp only [List.mem_cons, List.not_mem_nil, or_false] at hlp
    rcases hlp with rfl | rfl | rfl
    · exact Or.inl hl
    · exact Or.inr (Or.inl hl)
    · exact Or.inr (Or.inr hl)

/-- C10: extract_structured_data returns a dict with exactly the six
keys medications, lab_values, vital_signs, diagnoses, procedures and
symptoms, in that order; the last three are always empty, and each of
the first three is exactly the text/confidence projection of the
deduplicated entities whose label is the corresponding category. -/
theorem extract_structured_keys (re : String → PatternMatcher)
    (text : String) :
    ((MedicalEntityExtractor.mk (_load_patterns re)).extract_structured_data
        text).map Prod.fst =
      ["medications", "lab_values", "vital_signs", "diagnoses",
       "procedures", "symptoms"]
  ∧ aget ((MedicalEntityExtractor.mk
        (_load_patterns re)).extract_structured_data text) "medications" =
      some ((((MedicalEntityExtractor.mk
          (_load_patterns re)).extract_entities text).filter (fun e =>
        decide (e.label = "MEDICATION"))).map entryOf)
  ∧ aget ((MedicalEntityExtractor.mk
        (_load_patterns re)).extract_structured_data text) "lab_values" =
      some ((((MedicalEntityExtractor.mk
          (_load_patterns re)).extract_entities text).filter (fun e =>
        decide (e.label = "LAB_VALUE"))).map entryOf)
  ∧ aget ((MedicalEntityExtractor.mk
        (_load_patterns re)).extract_structured_data text) "vital_signs" =
      some ((((MedicalEntityExtractor.mk
          (_load_patterns re)).extract_entities text).filter (fun e =>
        decide (e.label = "VITAL_SIGNS"))).map entryOf)
  ∧ aget ((MedicalEntityExtractor.mk
        (_load_patterns re)).extract_structured_data text) "diagnoses" =
      some []
  ∧ aget ((MedicalEntityExtractor.mk
        (_load_patterns re)).extract_structured_data text) "procedures" =
      some []
  ∧ aget ((MedicalEntityExtractor.mk
        (_load_patterns re)).extract_structured_data text) "symptoms" =
      some [] := by
  have hmed : ((MedicalEntityExtractor.mk
      (_load_patterns re)).extract_entities text).filter (fun e =>
        decide (str_lower e.label = "medication")) =
      ((MedicalEntityExtractor.mk (_load_patterns re)).extract_entities
        text).filter (fun e => decide (e.label = "MEDICATION")) := by
    apply List.filter_congr
    intro e he
    rcases extract_entities_label re text he with h | h | h <;> rw [h] <;> decide
  have hlab : ((MedicalEntityExtractor.mk
      (_load_patterns re)).extract_entities text).filter (fun e =>
        decide (str_lower e.label = "lab_value")) =
      ((MedicalEntityExtractor.mk (_load_patterns re)).extract_entities
        text).filter (fun e => decide (e.label = "LAB_VALUE")) := by
    apply List.filter_congr
    intro e he
    rcases extract_entities_label re text he with h | h | h <;> rw [h] <;> decide
  have hvit : ((MedicalEntityExtractor.mk
      (_load_patterns re)).extract_entities text).filter (fun e =>
        decide (str_lower e.label = "vital_signs")) =
      ((MedicalEntityExtractor.mk (_load_patterns re)).extract_entities
        text).filter (fun e => decide (e.label = "VITAL_SIGNS")) := by
    apply List.filter_congr
    intro e he
    rcases extract_entities_label re text he with h | h | h <;> rw [h] <;> decide
  have hsd : (MedicalEntityExtractor.mk
      (_load_patterns re)).extract_structured_data text =
      [("medications", (((MedicalEntityExtractor.mk
          (_load_patterns re)).extract_entities text).filter (fun e =>
            decide (e.label = "MEDICATION"))).map entryOf),
       ("lab_values", (((MedicalEntityExtractor.mk
          (_load_patterns re)).extract_entities text).filter (fun e =>
            decide (e.label = "LAB_VALUE"))).map entryOf),
       ("vital_signs", (((MedicalEntityExtractor.mk
          (_load_patterns re)).extract_entities text).filter (fun e =>
            decide (e.label = "VITAL_SIGNS"))).map entryOf),
       ("diagnoses", []), ("procedures", []), ("symptoms", [])] := by
    unfold MedicalEntityExtractor.extract_structured_data
    rw [foldl_structStep]
    rw [hmed, hlab, hvit]
    simp
  rw [hsd]
  refine ⟨rfl, ?_, ?_, ?_, ?_, ?_, ?_⟩
  · exact aget_cons_eq
  · rw [aget_cons_ne (by decide)]
    exact aget_cons_eq
  · rw [aget_cons_ne (by decide), aget_cons_ne (by decide)]
    exact aget_cons_eq
  · rw [aget_cons_ne (by decide), aget_cons_ne (by decide),
      aget_cons_ne (by decide)]
    exact aget_cons_eq
  · rw [aget_cons_ne (by decide), aget_cons_ne (by decide),
      aget_cons_ne (by decide), aget_cons_ne (by decide)]
    exact aget_cons_eq
  · rw [aget_cons_ne (by decide), aget_cons_ne (by decide),
      aget_cons_ne (by decide), aget_cons_ne (by decide),
      aget_cons_ne (by decide)]
    exact aget_cons_eq

/-- C3 witness: a concrete returned result of a concrete search has
similarity at most 1. -/
theorem search_ranking_witness :
    toSearchResult ((tieDoc "r1" 0 "c1").1, 0) ∈ vsCex6.search embed0 "q" 3 []
  ∧ (toSearchResult ((tieDoc "r1" 0 "c1").1, 0)).similarity_score ≤ 1 := by
  have hmem : toSearchResult ((tieDoc "r1" 0 "c1").1, 0) ∈
      vsCex6.search embed0 "q" 3 [] := by
    rw [search_vsCex6_eval]
    exact List.mem_map.mpr ⟨((tieDoc "r1" 0 "c1").1, 0),
      List.mem_map.mpr ⟨tieDoc "r1" 0 "c1", by simp, rfl⟩, rfl⟩
  exact ⟨hmem, (search_ranking embed0 vsCex6 "q" 3 []).2.2 _ hmem⟩

end ClinicalAI
